import Mathlib

/-!
Verification of the NV12 → RGB(A) conversion core (`cuda/cudaYUV-NV12.cu`).

The CUDA kernel `NV12ToRGBA` and its launch wrapper `launchNV12ToRGBA` are
embedded shallowly:

* device byte memory is a function `ℕ → ℕ`; a `uint8_t` load through
  `srcImageU8` is `readU8`, which reduces the stored value mod 256;
* the kernel's `uint32_t` index arithmetic is ℕ arithmetic reduced mod 2^32
  (`U32`) exactly where the source computes in `uint32_t`;
* one "unit of work" is one CUDA thread, identified by its block index
  `(bx, bY)` and thread index `(tx, ty)` under the fixed `dim3 blockDim(32,8,1)`
  of the launch;
* `float` color arithmetic is modelled as exact rational arithmetic (`ℚ`);
  every property proved or refuted about it has a margin far larger than
  `float32` rounding error;
* the addresses a thread reads (`unitReads`) and the destination elements it
  writes (`unitWrites`) are extracted as lists, and the full write semantics
  is `NV12ToRGBA`, a destination-buffer transformer.

`make_vec` (from `cudaVector.h`) and `iDivUp` (from `cudaUtility.h`) are not
part of the source tree being verified and are modelled from the spec where
marked.
-/

/-- `uint32_t` truncation: the kernel computes its addresses and its
pitch/offset values in `uint32_t`. -/
def U32 (n : ℕ) : ℕ := n % 4294967296

/-- A `uint8_t` load from device memory (`srcImageU8[i]`). -/
def readU8 (src : ℕ → ℕ) (i : ℕ) : ℕ := src i % 256

/-- `#define COLOR_COMPONENT_MASK 0x3FF`. -/
def COLOR_COMPONENT_MASK : ℕ := 0x3FF

/-- `#define COLOR_COMPONENT_BIT_SIZE 10`. -/
def COLOR_COMPONENT_BIT_SIZE : ℕ := 10

/-- `blockDim.x` of the launch: `const dim3 blockDim(32,8,1)`. -/
def blockDimX : ℕ := 32

/-- `blockDim.y` of the launch: `const dim3 blockDim(32,8,1)`. -/
def blockDimY : ℕ := 8

/-- Modelled from the spec: `iDivUp` is declared in `cudaUtility.h`, which is
not among the source files; the spec describes the grid as
`ceil(width / blockSize)` blocks, so `iDivUp a b = ⌈a / b⌉` as the usual
integer ceiling division. -/
def iDivUp (a b : ℕ) : ℕ := (a + b - 1) / b

/-- The grid and block dimensions passed to the `<<<gridDim, blockDim>>>`
launch. -/
structure LaunchDims where
  gridX : ℕ
  gridY : ℕ
  gridZ : ℕ
  blockX : ℕ
  blockY : ℕ
  blockZ : ℕ
deriving DecidableEq, Repr

/-- Lines 213-214: `const dim3 blockDim(32,8,1);
const dim3 gridDim(iDivUp(width,blockDim.x), iDivUp(height, blockDim.y), 1)`. -/
def launchConfig (width height : ℕ) : LaunchDims :=
  ⟨iDivUp width blockDimX, iDivUp height blockDimY, 1, blockDimX, blockDimY, 1⟩

/-- Line 143: `x = blockIdx.x * (blockDim.x << 1) + (threadIdx.x << 1)`. -/
def threadX (bx tx : ℕ) : ℕ := bx * (blockDimX <<< 1) + (tx <<< 1)

/-- Line 144: `y = blockIdx.y * blockDim.y + threadIdx.y`. -/
def threadY (bY ty : ℕ) : ℕ := bY * blockDimY + ty

/-- Line 34: `clamp(x) = fminf(fmaxf(x, 0.0f), 255.0f)`, in exact rational
arithmetic. -/
def clamp (x : ℚ) : ℚ := min (max x 0) 255

/-- `uchar3` destination element. -/
structure uchar3 where
  x : ℕ
  y : ℕ
  z : ℕ
deriving DecidableEq, Repr

/-- `uchar4` destination element. -/
structure uchar4 where
  x : ℕ
  y : ℕ
  z : ℕ
  w : ℕ
deriving DecidableEq, Repr

/-- `float3` destination element (exact rationals). -/
structure float3 where
  x : ℚ
  y : ℚ
  z : ℚ
deriving DecidableEq

/-- `float4` destination element (exact rationals). -/
structure float4 where
  x : ℚ
  y : ℚ
  z : ℚ
  w : ℚ
deriving DecidableEq

/-- Modelled from the spec: the C conversion of a (clamped, non-negative)
`float` channel to a `uint8_t` channel truncates toward zero. -/
def toUChar (q : ℚ) : ℕ := (⌊q⌋).toNat

/-- Modelled from the spec: `make_vec<uchar3>` (from `cudaVector.h`, not among
the source files) packs 4 scalars into a pixel of the destination type;
3-channel types drop the 4th (alpha) scalar. -/
def make_uchar3 (r g b a : ℚ) : uchar3 := ⟨toUChar r, toUChar g, toUChar b⟩

/-- Modelled from the spec: `make_vec<uchar4>`, keeping all 4 scalars. -/
def make_uchar4 (r g b a : ℚ) : uchar4 := ⟨toUChar r, toUChar g, toUChar b, toUChar a⟩

/-- Modelled from the spec: `make_vec<float3>`, dropping the alpha scalar. -/
def make_float3 (r g b a : ℚ) : float3 := ⟨r, g, b⟩

/-- Modelled from the spec: `make_vec<float4>`, keeping all 4 scalars. -/
def make_float4 (r g b a : ℚ) : float4 := ⟨r, g, b, a⟩

/-- Lines 37-51, `YUV2RGB<T>(yuvi)`: the fixed linear transform applied to a
10-bit-scaled `(luma, u, v)` triple, each channel clamped to `[0, 255]`,
handed to `make_vec<T>` together with the constant alpha 255.  The `make_vec`
specialization is passed as `mk`. -/
def YUV2RGB {T : Type} (mk : ℚ → ℚ → ℚ → ℚ → T) (yuvi : ℕ × ℕ × ℕ) : T :=
  mk (clamp (((yuvi.1 : ℚ) + 1.140 * ((yuvi.2.2 : ℚ) - 512)) * (1 / 1024 * 255)))
     (clamp (((yuvi.1 : ℚ) - 0.395 * ((yuvi.2.1 : ℚ) - 512)
                - 0.581 * ((yuvi.2.2 : ℚ) - 512)) * (1 / 1024 * 255)))
     (clamp (((yuvi.1 : ℚ) + 2.032 * ((yuvi.2.1 : ℚ) - 512)) * (1 / 1024 * 255)))
     255

/-- Lines 157-187: the `(chromaCb, chromaCr)` pair the kernel reconstructs for
the thread at `(x, y)`.  `pitch` is the kernel's `processingPitch` (already a
`uint32_t`), and `U32 (pitch * height)` is `chromaOffset`.  The comparison
`y_chroma < ((height >> 1) - 1)` is an unsigned `uint32_t` comparison, so the
subtraction wraps when `height >> 1 = 0`; this is written out here as
`(height / 2 + 4294967295) % 4294967296`. -/
def chromaCbCr (src : ℕ → ℕ) (pitch height x y : ℕ) : ℕ × ℕ :=
  if y % 2 = 1 then
    if y / 2 < (height / 2 + 4294967295) % 4294967296 then
      ((readU8 src (U32 (U32 (pitch * height) + y / 2 * pitch + x)) +
          readU8 src (U32 (U32 (pitch * height) + (y / 2 + 1) * pitch + x)) + 1) >>> 1,
       (readU8 src (U32 (U32 (pitch * height) + y / 2 * pitch + (x + 1))) +
          readU8 src (U32 (U32 (pitch * height) + (y / 2 + 1) * pitch + (x + 1))) + 1) >>> 1)
    else
      (readU8 src (U32 (U32 (pitch * height) + y / 2 * pitch + x)),
       readU8 src (U32 (U32 (pitch * height) + y / 2 * pitch + (x + 1))))
  else
    (readU8 src (U32 (U32 (pitch * height) + y / 2 * pitch + x)),
     readU8 src (U32 (U32 (pitch * height) + y / 2 * pitch + (x + 1))))

/-- The distinct chroma-plane addresses the thread at `(x, y)` reads in lines
157-187 (the even branch reads each of its two addresses twice). -/
def chromaReads (pitch height x y : ℕ) : List ℕ :=
  if y % 2 = 1 then
    if y / 2 < (height / 2 + 4294967295) % 4294967296 then
      [U32 (U32 (pitch * height) + y / 2 * pitch + x),
       U32 (U32 (pitch * height) + y / 2 * pitch + (x + 1)),
       U32 (U32 (pitch * height) + (y / 2 + 1) * pitch + x),
       U32 (U32 (pitch * height) + (y / 2 + 1) * pitch + (x + 1))]
    else
      [U32 (U32 (pitch * height) + y / 2 * pitch + x),
       U32 (U32 (pitch * height) + y / 2 * pitch + (x + 1))]
  else
    [U32 (U32 (pitch * height) + y / 2 * pitch + x),
     U32 (U32 (pitch * height) + y / 2 * pitch + (x + 1))]

/-- Lines 154-187: `yuv101010Pel[k]` for `k ∈ {0, 1}` — the luma byte of
column `x + k` shifted left by 2, with the shared chroma pair OR-ed in at bit
positions 12 and 22. -/
def pelAt (src : ℕ → ℕ) (pitch height x y k : ℕ) : ℕ :=
  (readU8 src (U32 (y * pitch + x + k)) <<< 2) |||
    ((chromaCbCr src pitch height x y).1 <<< (COLOR_COMPONENT_BIT_SIZE + 2)) |||
    ((chromaCbCr src pitch height x y).2 <<< ((COLOR_COMPONENT_BIT_SIZE <<< 1) + 2))

/-- Lines 190-196: unpacking a `yuv101010` word into the `uint3 yuvi`. -/
def yuviOfPel (pel : ℕ) : ℕ × ℕ × ℕ :=
  (pel &&& COLOR_COMPONENT_MASK,
   (pel >>> COLOR_COMPONENT_BIT_SIZE) &&& COLOR_COMPONENT_MASK,
   (pel >>> (COLOR_COMPONENT_BIT_SIZE <<< 1)) &&& COLOR_COMPONENT_MASK)

/-- The `yuvi_k` triple handed to `YUV2RGB` for pixel `(x + k, y)`. -/
def yuviAt (src : ℕ → ℕ) (pitch height x y k : ℕ) : ℕ × ℕ × ℕ :=
  yuviOfPel (pelAt src pitch height x y k)

/-- Lines 131-201, the kernel `NV12ToRGBA<T>` as a destination-buffer
transformer for one thread `(bx, bY, tx, ty)`.  `processingPitch` is
`nSourcePitch` truncated to `uint32_t` (line 140).  Note both destination
indices are computed as `y * width + x (+ 1)` (lines 199-200); `nDestPitch`
is a parameter of the kernel but is not used by it. -/
def NV12ToRGBA {T : Type} (mk : ℚ → ℚ → ℚ → ℚ → T) (src : ℕ → ℕ)
    (nSourcePitch : ℕ) (dst : ℕ → T) (nDestPitch width height bx bY tx ty : ℕ) :
    ℕ → T :=
  if width ≤ threadX bx tx ∨ height ≤ threadY bY ty then dst
  else
    fun i =>
      if i = U32 (threadY bY ty * width + threadX bx tx + 1) then
        YUV2RGB mk (yuviAt src (U32 nSourcePitch) height (threadX bx tx) (threadY bY ty) 1)
      else if i = U32 (threadY bY ty * width + threadX bx tx) then
        YUV2RGB mk (yuviAt src (U32 nSourcePitch) height (threadX bx tx) (threadY bY ty) 0)
      else dst i

/-- The destination element indices written by thread `(bx, bY, tx, ty)`:
none if the thread fails its bound checks (lines 146-150), otherwise the two
indices of lines 199-200.  `nDestPitch` is carried because the kernel receives
it, but — as in the source — it does not enter the indices. -/
def unitWrites (width height nDestPitch bx bY tx ty : ℕ) : List ℕ :=
  if width ≤ threadX bx tx ∨ height ≤ threadY bY ty then []
  else [U32 (threadY bY ty * width + threadX bx tx),
        U32 (threadY bY ty * width + threadX bx tx + 1)]

/-- The source addresses read by thread `(bx, bY, tx, ty)`: none if the thread
fails its bound checks, otherwise the two luma bytes of lines 154-155 followed
by the chroma addresses of lines 157-187. -/
def unitReads (nSourcePitch width height bx bY tx ty : ℕ) : List ℕ :=
  if width ≤ threadX bx tx ∨ height ≤ threadY bY ty then []
  else [U32 (threadY bY ty * U32 nSourcePitch + threadX bx tx),
        U32 (threadY bY ty * U32 nSourcePitch + threadX bx tx + 1)] ++
       chromaReads (U32 nSourcePitch) height (threadX bx tx) (threadY bY ty)

/-- The `cudaError_t` values `launchNV12ToRGBA` can produce in this model
(an ideal device: `cudaGetLastError` reports success). -/
inductive CudaError where
  | cudaSuccess
  | cudaErrorInvalidDevicePointer
  | cudaErrorInvalidValue
deriving DecidableEq, Repr

/-- All threads of the launched grid, in row-major enumeration order. -/
def allUnits (gx gy : ℕ) : List (ℕ × ℕ × ℕ × ℕ) :=
  (List.range gx).flatMap fun bx =>
    (List.range gy).flatMap fun bY =>
      (List.range blockDimX).flatMap fun tx =>
        (List.range blockDimY).map fun ty => (bx, bY, tx, ty)

/-- All source addresses read by the launched grid. -/
def gridReads (nSourcePitch width height : ℕ) : List ℕ :=
  (allUnits (launchConfig width height).gridX (launchConfig width height).gridY).flatMap
    fun u => unitReads nSourcePitch width height u.1 u.2.1 u.2.2.1 u.2.2.2

/-- The destination buffer after every thread of the grid has run. -/
def gridRun {T : Type} (mk : ℚ → ℚ → ℚ → ℚ → T) (src : ℕ → ℕ)
    (nSourcePitch : ℕ) (dst : ℕ → T) (nDestPitch width height : ℕ) : ℕ → T :=
  (allUnits (launchConfig width height).gridX (launchConfig width height).gridY).foldl
    (fun d u => NV12ToRGBA mk src nSourcePitch d nDestPitch width height
                  u.1 u.2.1 u.2.2.1 u.2.2.2) dst

/-- Lines 204-219, `launchNV12ToRGBA<T>`: argument validation, then the kernel
launch.  Device pointers are modelled as numeric addresses with `0` as the
null pointer; the result records the returned `cudaError_t`, the source
addresses the dispatched grid reads, and the destination buffer after the
dispatched grid (unchanged, with no reads, when validation fails). -/
def launchNV12ToRGBA {T : Type} (mk : ℚ → ℚ → ℚ → ℚ → T)
    (srcDev srcPitch destDev destPitch width height : ℕ)
    (src : ℕ → ℕ) (dst : ℕ → T) : CudaError × List ℕ × (ℕ → T) :=
  if srcDev = 0 ∨ destDev = 0 then (.cudaErrorInvalidDevicePointer, [], dst)
  else if srcPitch = 0 ∨ destPitch = 0 ∨ width = 0 ∨ height = 0 then
    (.cudaErrorInvalidValue, [], dst)
  else
    (.cudaSuccess, gridReads srcPitch width height,
     gridRun mk src srcPitch dst destPitch width height)

/-- A concrete all-zero source buffer, used to instantiate theorems. -/
def srcZero : ℕ → ℕ := fun _ => 0

/-- A concrete identity-pattern source buffer, used to instantiate theorems. -/
def srcId : ℕ → ℕ := fun i => i

/-- A concrete initial destination buffer, used to instantiate theorems. -/
def dstZero : ℕ → uchar4 := fun _ => ⟨0, 0, 0, 0⟩

/-! ### Helper lemmas -/

theorem threadX_eq (bx tx : ℕ) : threadX bx tx = bx * 64 + tx * 2 := by
  simp [threadX, blockDimX, Nat.shiftLeft_eq]

theorem threadY_eq (bY ty : ℕ) : threadY bY ty = bY * 8 + ty := rfl

theorem clamp_nonneg (q : ℚ) : 0 ≤ clamp q :=
  le_min (le_max_right _ _) (by norm_num)

theorem clamp_le_255 (q : ℚ) : clamp q ≤ 255 := min_le_right _ _

theorem rowmaj_inj (n p q a b : ℕ) (ha : a < n) (hb : b < n)
    (h : p * n + a = q * n + b) : p = q ∧ a = b := by
  have hp : (p * n + a) / n = p := by
    rw [Nat.mul_comm p n, Nat.mul_add_div (by omega), Nat.div_eq_of_lt ha, Nat.add_zero]
  have hq : (q * n + b) / n = q := by
    rw [Nat.mul_comm q n, Nat.mul_add_div (by omega), Nat.div_eq_of_lt hb, Nat.add_zero]
  have hpq : p = q := by rw [← hp, ← hq, h]
  subst hpq
  exact ⟨rfl, by omega⟩

theorem NV12ToRGBA_untouched {T : Type} (mk : ℚ → ℚ → ℚ → ℚ → T) (src : ℕ → ℕ)
    (nSourcePitch : ℕ) (dst : ℕ → T) (nDestPitch width height bx bY tx ty i : ℕ)
    (hi : i ∉ unitWrites width height nDestPitch bx bY tx ty) :
    NV12ToRGBA mk src nSourcePitch dst nDestPitch width height bx bY tx ty i = dst i := by
  unfold NV12ToRGBA unitWrites at *
  by_cases hg : width ≤ threadX bx tx ∨ height ≤ threadY bY ty
  · rw [if_pos hg]
  · rw [if_neg hg] at hi ⊢
    simp only [List.mem_cons, List.not_mem_nil, or_false, not_or] at hi
    rw [if_neg (by omega), if_neg (by omega)]

/-! ### Claim theorems -/

/-- Claim C1 (code_bug evidence): the kernel bound-checks only `x` and `y`,
never `x + 1`.  For `width = 3, height = 2, srcPitch = 3`, the launched thread
`(bx, bY, tx, ty) = (0, 0, 1, 1)` (within the grid `launchConfig 3 2` and the
32×8 block) has `x = 2 < 3` and `y = 1 < 2`, so it passes both checks, yet it
writes destination elements 5 and 6 — element 6 is at or beyond the
`width * height = 6`-element destination — and reads source byte 9, at or
beyond the `pitch * height + pitch * (height / 2) = 9`-byte NV12 buffer. -/
theorem nv12_kernel_oob_access_width3 :
    0 < (launchConfig 3 2).gridX ∧ 0 < (launchConfig 3 2).gridY ∧
    1 < blockDimX ∧ 1 < blockDimY ∧
    unitWrites 3 2 3 0 0 1 1 = [5, 6] ∧ 3 * 2 ≤ 6 ∧
    unitReads 3 3 2 0 0 1 1 = [5, 6, 8, 9] ∧ 3 * 2 + 3 * (2 / 2) ≤ 9 := by
  decide

/-- Claim C2 (code_bug evidence): the kernel indexes the destination with
`y * width + x`, ignoring its `nDestPitch` parameter.  With `width = 2,
height = 2` and a destination row pitch of 4 elements, the thread covering
pixel `(0, 1)` writes destination elements 2 and 3; the pitch-derived element
`1 * 4 + 0 = 4` is not written. -/
theorem nv12_kernel_ignores_dest_pitch :
    unitWrites 2 2 4 0 0 0 1 = [2, 3] ∧ 1 * 4 + 0 ∉ unitWrites 2 2 4 0 0 0 1 := by
  decide

/-- Claim C3: the launch wrapper returns the invalid-device-pointer error when
either pointer is null, and otherwise the invalid-value error when any of
source pitch, destination pitch, width, height is zero; in both cases it
returns before dispatching the grid, with no source read and the destination
unchanged. -/
theorem launch_validates_before_dispatch {T : Type} (mk : ℚ → ℚ → ℚ → ℚ → T)
    (srcDev srcPitch destDev destPitch width height : ℕ)
    (src : ℕ → ℕ) (dst : ℕ → T) :
    (srcDev = 0 ∨ destDev = 0 →
      launchNV12ToRGBA mk srcDev srcPitch destDev destPitch width height src dst =
        (CudaError.cudaErrorInvalidDevicePointer, [], dst)) ∧
    (srcDev ≠ 0 → destDev ≠ 0 →
      srcPitch = 0 ∨ destPitch = 0 ∨ width = 0 ∨ height = 0 →
      launchNV12ToRGBA mk srcDev srcPitch destDev destPitch width height src dst =
        (CudaError.cudaErrorInvalidValue, [], dst)) := by
  constructor
  · intro h
    unfold launchNV12ToRGBA
    rw [if_pos h]
  · intro h1 h2 h3
    unfold launchNV12ToRGBA
    rw [if_neg (by tauto), if_pos h3]

/-- Witness for C3: a null source pointer and, separately, a zero width are
rejected with the documented errors and untouched buffers. -/
theorem launch_validates_before_dispatch_witness :
    launchNV12ToRGBA make_uchar4 0 64 1 256 4 4 srcZero dstZero =
      (CudaError.cudaErrorInvalidDevicePointer, [], dstZero) ∧
    launchNV12ToRGBA make_uchar4 1 64 1 256 0 4 srcZero dstZero =
      (CudaError.cudaErrorInvalidValue, [], dstZero) :=
  ⟨(launch_validates_before_dispatch make_uchar4 0 64 1 256 4 4 srcZero dstZero).1
      (Or.inl rfl),
   (launch_validates_before_dispatch make_uchar4 1 64 1 256 0 4 srcZero dstZero).2
      (by decide) (by decide) (Or.inr (Or.inr (Or.inl rfl)))⟩

/-- Claim C4 counterexample: at `width = 64, height = 8` the launch computes a
grid 2 blocks wide (`iDivUp(width, blockDim.x)`, line 214), not the
`ceil(width / (2 × blockWidth)) = 1` of the claim; and its second block
(`blockIdx.x = 1 <` gridX) starts at `x = threadX 1 0 = 64`, at/beyond the
image bound `width = 64`, contradicting "no block starts beyond the image
bound". -/
theorem grid_twice_needed_blocks_cex :
    (launchConfig 64 8).gridX = 2 ∧ iDivUp 64 (2 * blockDimX) = 1 ∧
    (launchConfig 64 8).gridX ≠ iDivUp 64 (2 * blockDimX) ∧
    1 < (launchConfig 64 8).gridX ∧ threadX 1 0 = 64 ∧ 64 ≤ threadX 1 0 := by
  decide

/-- Claim C4 as amended: the launch uses fixed 32×8 blocks and a grid of
exactly `iDivUp(width, 32) × iDivUp(height, 8)` blocks — twice as many block
columns as the two-pixels-per-thread tiling needs — which fully covers the
image (each block column spans `2 × blockDimX` output columns). -/
theorem grid_dims_amended (width height : ℕ) :
    launchConfig width height =
      ⟨iDivUp width blockDimX, iDivUp height blockDimY, 1, blockDimX, blockDimY, 1⟩ ∧
    width ≤ (launchConfig width height).gridX * (blockDimX * 2) ∧
    height ≤ (launchConfig width height).gridY * blockDimY := by
  refine ⟨rfl, ?_, ?_⟩ <;> simp [launchConfig, iDivUp, blockDimX, blockDimY] <;> omega

/-- Claim C9: for both 4-channel destination types, the alpha channel of every
produced pixel is 255, the maximum of the `[0, 255]` channel range, for every
source buffer and both pixels of every unit of work. -/
theorem alpha_always_opaque (src : ℕ → ℕ) (pitch height x y k : ℕ) :
    (YUV2RGB make_uchar4 (yuviAt src pitch height x y k)).w = 255 ∧
    (YUV2RGB make_float4 (yuviAt src pitch height x y k)).w = 255 := by
  constructor
  · show toUChar 255 = 255
    norm_num [toUChar]
    rfl
  · rfl

/-- Claim C10: the R, G, B channels produced for a 3-channel destination equal
those produced for the 4-channel destination of the same numeric kind, on
every source buffer and both pixels of every unit of work: the channel count
affects only the presence of alpha, never the color math. -/
theorem rgb_channels_type_independent (src : ℕ → ℕ) (pitch height x y k : ℕ) :
    (YUV2RGB make_uchar3 (yuviAt src pitch height x y k)).x =
      (YUV2RGB make_uchar4 (yuviAt src pitch height x y k)).x ∧
    (YUV2RGB make_uchar3 (yuviAt src pitch height x y k)).y =
      (YUV2RGB make_uchar4 (yuviAt src pitch height x y k)).y ∧
    (YUV2RGB make_uchar3 (yuviAt src pitch height x y k)).z =
      (YUV2RGB make_uchar4 (yuviAt src pitch height x y k)).z ∧
    (YUV2RGB make_float3 (yuviAt src pitch height x y k)).x =
      (YUV2RGB make_float4 (yuviAt src pitch height x y k)).x ∧
    (YUV2RGB make_float3 (yuviAt src pitch height x y k)).y =
      (YUV2RGB make_float4 (yuviAt src pitch height x y k)).y ∧
    (YUV2RGB make_float3 (yuviAt src pitch height x y k)).z =
      (YUV2RGB make_float4 (yuviAt src pitch height x y k)).z :=
  ⟨rfl, rfl, rfl, rfl, rfl, rfl⟩

/-- Claim C6: for an even output row `y`, the kernel's reconstructed Cb/Cr is
the pair of raw bytes of chroma row `y >> 1` at columns `x` and `x + 1`, read
at the chroma-plane origin `rowPitch × height`, with no averaging; and those
two addresses are the only chroma addresses the thread reads. -/
theorem even_row_chroma_direct (src : ℕ → ℕ) (pitch height x y : ℕ)
    (heven : y % 2 = 0)
    (hfit : pitch * height + y / 2 * pitch + (x + 1) < 4294967296) :
    chromaCbCr src pitch height x y =
      (readU8 src (pitch * height + y / 2 * pitch + x),
       readU8 src (pitch * height + y / 2 * pitch + (x + 1))) ∧
    chromaReads pitch height x y =
      [pitch * height + y / 2 * pitch + x,
       pitch * height + y / 2 * pitch + (x + 1)] := by
  have hne : ¬ y % 2 = 1 := by omega
  have h1 : U32 (pitch * height) = pitch * height := by unfold U32; omega
  have h2 : U32 (pitch * height + y / 2 * pitch + x) =
      pitch * height + y / 2 * pitch + x := by unfold U32; omega
  have h3 : U32 (pitch * height + y / 2 * pitch + (x + 1)) =
      pitch * height + y / 2 * pitch + (x + 1) := by unfold U32; omega
  unfold chromaCbCr chromaReads
  simp only [if_neg hne]
  rw [h1, h2, h3]
  exact ⟨rfl, rfl⟩

/-- Witness for C6 at `src = srcId, pitch = 4, height = 4, (x, y) = (0, 2)`. -/
theorem even_row_chroma_direct_witness :
    chromaCbCr srcId 4 4 0 2 =
      (readU8 srcId (4 * 4 + 2 / 2 * 4 + 0), readU8 srcId (4 * 4 + 2 / 2 * 4 + (0 + 1))) ∧
    chromaReads 4 4 0 2 =
      [4 * 4 + 2 / 2 * 4 + 0, 4 * 4 + 2 / 2 * 4 + (0 + 1)] :=
  even_row_chroma_direct srcId 4 4 0 2 (by decide) (by decide)

/-- Claim C5: for an odd in-bounds output row `y`, when `y >> 1` is not the
last chroma row the kernel's reconstructed Cb/Cr is the half-up-rounded
average `(a + b + 1) >> 1` of the samples of chroma rows `y >> 1` and
`(y >> 1) + 1`; when `y >> 1` is the last chroma row no interpolation happens,
the raw values of that single row are used, and no address of a next chroma
row is read. -/
theorem odd_row_chroma_interpolation (src : ℕ → ℕ) (pitch height x y : ℕ)
    (hodd : y % 2 = 1) (hy : y < height) (hheight : height < 4294967296)
    (hfit : pitch * height + (y / 2 + 1) * pitch + (x + 1) < 4294967296) :
    (y / 2 < height / 2 - 1 →
      chromaCbCr src pitch height x y =
        ((readU8 src (pitch * height + y / 2 * pitch + x) +
            readU8 src (pitch * height + (y / 2 + 1) * pitch + x) + 1) >>> 1,
         (readU8 src (pitch * height + y / 2 * pitch + (x + 1)) +
            readU8 src (pitch * height + (y / 2 + 1) * pitch + (x + 1)) + 1) >>> 1)) ∧
    (height / 2 - 1 ≤ y / 2 →
      chromaCbCr src pitch height x y =
        (readU8 src (pitch * height + y / 2 * pitch + x),
         readU8 src (pitch * height + y / 2 * pitch + (x + 1))) ∧
      chromaReads pitch height x y =
        [pitch * height + y / 2 * pitch + x,
         pitch * height + y / 2 * pitch + (x + 1)]) := by
  have hh2 : 2 ≤ height := by omega
  have hcond : (height / 2 + 4294967295) % 4294967296 = height / 2 - 1 := by omega
  have hmono : y / 2 * pitch ≤ (y / 2 + 1) * pitch :=
    Nat.mul_le_mul_right pitch (by omega)
  have h1 : U32 (pitch * height) = pitch * height := by unfold U32; omega
  have h2 : U32 (pitch * height + y / 2 * pitch + x) =
      pitch * height + y / 2 * pitch + x := by unfold U32; omega
  have h3 : U32 (pitch * height + y / 2 * pitch + (x + 1)) =
      pitch * height + y / 2 * pitch + (x + 1) := by unfold U32; omega
  have h4 : U32 (pitch * height + (y / 2 + 1) * pitch + x) =
      pitch * height + (y / 2 + 1) * pitch + x := by unfold U32; omega
  have h5 : U32 (pitch * height + (y / 2 + 1) * pitch + (x + 1)) =
      pitch * height + (y / 2 + 1) * pitch + (x + 1) := by unfold U32; omega
  constructor
  · intro hlt
    unfold chromaCbCr
    rw [if_pos hodd, hcond, if_pos hlt, h1, h2, h3, h4, h5]
  · intro hge
    unfold chromaCbCr chromaReads
    simp only [if_pos hodd]
    rw [hcond]
    simp only [if_neg (show ¬ y / 2 < height / 2 - 1 by omega)]
    rw [h1, h2, h3]
    exact ⟨rfl, rfl⟩

/-- Witness for C5 at `src = srcId, pitch = 4, height = 6, (x, y) = (0, 1)`
(an interpolating odd row). -/
theorem odd_row_chroma_interpolation_witness :
    chromaCbCr srcId 4 6 0 1 =
      ((readU8 srcId (4 * 6 + 1 / 2 * 4 + 0) +
          readU8 srcId (4 * 6 + (1 / 2 + 1) * 4 + 0) + 1) >>> 1,
       (readU8 srcId (4 * 6 + 1 / 2 * 4 + (0 + 1)) +
          readU8 srcId (4 * 6 + (1 / 2 + 1) * 4 + (0 + 1)) + 1) >>> 1) :=
  (odd_row_chroma_interpolation srcId 4 6 0 1 (by decide) (by decide) (by decide)
      (by decide)).1 (by decide)

/-- Claim C8 counterexample: at maximum luma with maximum chroma deviation —
`yuvi = (1020, 1020, 1020)`, i.e. luma byte 255 and chroma bytes 255 in the
10-bit-scaled intermediate — the R channel saturates to 255 but the G channel
is `(1020 − 0.395·508 − 0.581·508) · 255/1024 ≈ 130.5`, not 255: the claim's
example saturating input does not produce 255 on all three channels. -/
theorem saturating_input_not_all_255_cex :
    (YUV2RGB make_float4 (1020, 1020, 1020)).x = 255 ∧
    (YUV2RGB make_float4 (1020, 1020, 1020)).y ≠ 255 := by
  constructor <;> norm_num [YUV2RGB, make_float4, clamp, min_def, max_def]

/-- Claim C8 as amended: every channel equals the clamped BT.601-family
linear transform with Cb/Cr centered by subtracting 512 and scale `255/1024`,
so every channel lies in `[0, 255]` — never wrapping or negative — and
channels do saturate to exactly 255: R does at maximum luma with maximum
chroma deviation (though, per the counterexample, G does not saturate there,
so that input does not produce 255 on all three channels). -/
theorem yuv2rgb_formula_and_range (yuvi : ℕ × ℕ × ℕ) :
    YUV2RGB make_float4 yuvi =
      make_float4
        (clamp (((yuvi.1 : ℚ) + 1.140 * ((yuvi.2.2 : ℚ) - 512)) * (255 / 1024)))
        (clamp (((yuvi.1 : ℚ) - 0.395 * ((yuvi.2.1 : ℚ) - 512)
                  - 0.581 * ((yuvi.2.2 : ℚ) - 512)) * (255 / 1024)))
        (clamp (((yuvi.1 : ℚ) + 2.032 * ((yuvi.2.1 : ℚ) - 512)) * (255 / 1024)))
        255 ∧
    0 ≤ (YUV2RGB make_float4 yuvi).x ∧ (YUV2RGB make_float4 yuvi).x ≤ 255 ∧
    0 ≤ (YUV2RGB make_float4 yuvi).y ∧ (YUV2RGB make_float4 yuvi).y ≤ 255 ∧
    0 ≤ (YUV2RGB make_float4 yuvi).z ∧ (YUV2RGB make_float4 yuvi).z ≤ 255 ∧
    (YUV2RGB make_float4 (1020, 1020, 1020)).x = 255 := by
  refine ⟨?_, clamp_nonneg _, clamp_le_255 _, clamp_nonneg _, clamp_le_255 _,
    clamp_nonneg _, clamp_le_255 _, ?_⟩
  · simp only [YUV2RGB, make_float4, float4.mk.injEq]
    refine ⟨?_, ?_, ?_, trivial⟩ <;> (congr 1; ring)
  · norm_num [YUV2RGB, make_float4, clamp, min_def, max_def]

/-- Claim C7: for even `width, height ≥ 2` (with the `width × height`
destination indexable in the kernel's `uint32_t` arithmetic), every output
pixel `(px, py)` — i.e. destination element `py * width + px` — is written by
exactly one thread of the launched grid: no gaps, no double writes. -/
theorem pixel_coverage_exactly_once (width height nDestPitch px py : ℕ)
    (hweven : width % 2 = 0) (hheven : height % 2 = 0)
    (hw2 : 2 ≤ width) (hh2 : 2 ≤ height)
    (hpx : px < width) (hpy : py < height)
    (hfit : width * height < 4294967296) :
    ∃! u : ℕ × ℕ × ℕ × ℕ,
      u.1 < (launchConfig width height).gridX ∧
      u.2.1 < (launchConfig width height).gridY ∧
      u.2.2.1 < blockDimX ∧ u.2.2.2 < blockDimY ∧
      py * width + px ∈ unitWrites width height nDestPitch u.1 u.2.1 u.2.2.1 u.2.2.2 := by
  have hgx : (launchConfig width height).gridX = (width + 32 - 1) / 32 := rfl
  have hgy : (launchConfig width height).gridY = (height + 8 - 1) / 8 := rfl
  have hcomm : width * height = height * width := Nat.mul_comm width height
  have hm2 : height * width = (height - 1) * width + width := by
    have hsplit : height = (height - 1) + 1 := by omega
    calc height * width = ((height - 1) + 1) * width := by rw [← hsplit]
      _ = (height - 1) * width + width := by ring
  refine ⟨⟨(px - px % 2) / 64, py / 8, (px - px % 2) % 64 / 2, py % 8⟩,
    ⟨?_, ?_, ?_, ?_, ?_⟩, ?_⟩
  · show (px - px % 2) / 64 < (launchConfig width height).gridX
    rw [hgx]; omega
  · show py / 8 < (launchConfig width height).gridY
    rw [hgy]; omega
  · show (px - px % 2) % 64 / 2 < blockDimX
    unfold blockDimX; omega
  · show py % 8 < blockDimY
    unfold blockDimY; omega
  · show py * width + px ∈
      unitWrites width height nDestPitch ((px - px % 2) / 64) (py / 8)
        ((px - px % 2) % 64 / 2) (py % 8)
    have hxe : threadX ((px - px % 2) / 64) ((px - px % 2) % 64 / 2) = px - px % 2 := by
      rw [threadX_eq]; omega
    have hye : threadY (py / 8) (py % 8) = py := by rw [threadY_eq]; omega
    have hm1 : py * width ≤ (height - 1) * width :=
      Nat.mul_le_mul_right width (by omega)
    have hu1 : U32 (py * width + (px - px % 2)) = py * width + (px - px % 2) := by
      unfold U32; omega
    have hu2 : U32 (py * width + (px - px % 2) + 1) = py * width + (px - px % 2) + 1 := by
      unfold U32; omega
    unfold unitWrites
    rw [hxe, hye, if_neg (by omega), hu1, hu2]
    simp only [List.mem_cons, List.not_mem_nil, or_false]
    omega
  · rintro ⟨vbx, vbY, vtx, vty⟩ ⟨hb1, hb2, hb3, hb4, hmem⟩
    dsimp only at hb1 hb2 hb3 hb4 hmem
    rw [hgx] at hb1
    rw [hgy] at hb2
    unfold blockDimX at hb3
    unfold blockDimY at hb4
    unfold unitWrites at hmem
    rw [threadX_eq, threadY_eq] at hmem
    by_cases hg : width ≤ vbx * 64 + vtx * 2 ∨ height ≤ vbY * 8 + vty
    · rw [if_pos hg] at hmem
      simp at hmem
    · rw [if_neg hg] at hmem
      push_neg at hg
      obtain ⟨hgxlt, hgylt⟩ := hg
      have hm1 : (vbY * 8 + vty) * width ≤ (height - 1) * width :=
        Nat.mul_le_mul_right width (by omega)
      have hxp1 : vbx * 64 + vtx * 2 + 1 < width := by omega
      have hu1 : U32 ((vbY * 8 + vty) * width + (vbx * 64 + vtx * 2)) =
          (vbY * 8 + vty) * width + (vbx * 64 + vtx * 2) := by
        unfold U32; omega
      have hu2 : U32 ((vbY * 8 + vty) * width + (vbx * 64 + vtx * 2) + 1) =
          (vbY * 8 + vty) * width + (vbx * 64 + vtx * 2) + 1 := by
        unfold U32; omega
      rw [hu1, hu2] at hmem
      simp only [List.mem_cons, List.not_mem_nil, or_false] at hmem
      simp only [Prod.mk.injEq]
      rcases hmem with hA | hB
      · obtain ⟨hrow, hcol⟩ := rowmaj_inj width py (vbY * 8 + vty) px
          (vbx * 64 + vtx * 2) hpx (by omega) hA
        omega
      · obtain ⟨hrow, hcol⟩ := rowmaj_inj width py (vbY * 8 + vty) px
          (vbx * 64 + vtx * 2 + 1) hpx hxp1 hB
        omega

/-- Witness for C7: in a 4×2 image, pixel `(3, 1)` (destination element 7) is
covered by exactly one thread. -/
theorem pixel_coverage_exactly_once_witness :
    ∃! u : ℕ × ℕ × ℕ × ℕ,
      u.1 < (launchConfig 4 2).gridX ∧
      u.2.1 < (launchConfig 4 2).gridY ∧
      u.2.2.1 < blockDimX ∧ u.2.2.2 < blockDimY ∧
      1 * 4 + 3 ∈ unitWrites 4 2 16 u.1 u.2.1 u.2.2.1 u.2.2.2 :=
  pixel_coverage_exactly_once 4 2 16 3 1 (by decide) (by decide) (by decide)
    (by decide) (by decide) (by decide) (by decide)
